import Mathlib

/-!
Verification development for the dataflow kernel (DFK) of the parsl repository.

The definitions below are a shallow embedding of `src/parsl/dataflow/dflow.py`
and `src/parsl/dataflow/strategy.py`.  Python dictionaries become functions
`Nat → Option _` (plus an explicit key list where iteration order matters),
`datetime.now()` becomes an explicit clock field, executor/monitoring calls
become entries of an event trace, and the mutually recursive trio
`handle_exec_update` / `launch_if_ready` / `launch_task` becomes a single
fuel-indexed interpreter `dfk_run` (the fuel only bounds the recursion depth;
every claim is stated with enough fuel for the paths it exercises).

Code of the repository that is not under `src/` (the `AppFuture` class in
`parsl/dataflow/futures.py` and the `Memoizer` in
`parsl/dataflow/memoization.py`) is modelled from the specification; each such
definition carries a doc comment starting `Modelled from the spec:`.
-/

namespace Parsl

namespace Dflow

/-- Task lifecycle states, from `parsl.dataflow.states.States`.
`FINAL_STATES` are done/failed/dep_fail; `FINAL_FAILURE_STATES` are
failed/dep_fail. -/
inductive States where
  | unsched
  | pending
  | launched
  | done
  | failed
  | dep_fail
deriving DecidableEq, Repr

/-- The observable content of a completed executor-level future.
`value v` is a plain result, `remoteExn e` is a successful future whose result
is a `RemoteExceptionWrapper` carrying error `e` (the completion handler
re-raises it), `exn e` is a future that itself raised `e`. -/
inductive FuVal where
  | value (v : Nat)
  | remoteExn (e : Nat)
  | exn (e : Nat)
deriving DecidableEq, Repr

/-- A future returned by `launch_task`: either an already-completed future
(the memo hit path) or a freshly submitted, still-running executor future. -/
inductive ExecFu where
  | completed (fv : FuVal)
  | running
deriving DecidableEq, Repr

/-- One dependency future of a task, as seen by `launch_if_ready`:
`state` is `none` while the future is not done, otherwise its outcome;
`final_failure` records whether the dependency's own task is in a
`FINAL_FAILURE_STATES` status (the condition checked by `sanitize_and_wrap`
before collecting the dependency error). -/
structure DepFu where
  state : Option (Except Nat Nat)
  final_failure : Bool
deriving Repr

/-- Observable calls made by the kernel, recorded as an event trace. -/
inductive Ev where
  | submitToExecutor (tid : Nat)
  | launchTaskCalled (tid : Nat)
  | launchIfReadyCalled (tid : Nat)
  | checkpointTasks (tid : Nat)
deriving DecidableEq, Repr

/-- One entry of `self.tasks`, holding the fields of the task record that the
claims mention.  `fingerprint` stands for the deterministic memoization hash of
the task's function and resolved arguments; `hashsum` is the record field of
the same name, populated on the first memo probe.  The task's output-file list
is empty in this model, so the stage-out walk in `handle_app_update` does
nothing. -/
structure TaskRecord where
  id : Nat
  status : States
  fail_count : Nat
  fail_history : List (Option Nat)
  time_submitted : Option Nat
  time_returned : Option Nat
  memoize : Bool
  fingerprint : Nat
  hashsum : Option Nat
  app_fu : Option (Except Nat Nat)
  exec_fu : Option ExecFu
  depends : List DepFu
  executor : String
deriving Repr

/-- The configuration fields the embedded code reads. -/
structure Cfg where
  retries : Nat
  lazy_errors : Bool
  app_cache : Bool
  checkpoint_mode : Option String
deriving Repr

/-- Per-executor data consulted by `cleanup`. -/
structure ExecInfo where
  label : String
  managed : Bool
  scaling_enabled : Bool
  resource_count : Nat
deriving DecidableEq, Repr

/-- The DataFlowKernel state.  `tasks`/`task_ids` together model the
`self.tasks` dict (lookup function plus insertion-ordered key list);
`now` is the current value of `datetime.datetime.now()`. -/
structure DFKState where
  tasks : Nat → Option TaskRecord
  task_ids : List Nat
  task_count : Nat
  tasks_completed_count : Nat
  tasks_failed_count : Nat
  now : Nat
  memo_table : List (Nat × FuVal)
  executor_labels : List String
  cleanup_called : Bool
  has_checkpoint_timer : Bool
  executor_infos : List ExecInfo
  time_completed : Option Nat
  monitoring : Bool

def getTask (st : DFKState) (tid : Nat) : Option TaskRecord :=
  st.tasks tid

def setTask (st : DFKState) (tid : Nat) (tr : TaskRecord) : DFKState :=
  { st with tasks := fun i => if i = tid then some tr else st.tasks i }

/-- `DataFlowKernel._count_deps`: the number of dependency futures that are
not yet done. -/
def count_deps (deps : List DepFu) : Nat :=
  (deps.filter (fun d => d.state.isNone)).length

/-- The dependency errors collected by `sanitize_and_wrap`: an error is kept
only when the dependency future raised and its task is in a final-failure
state. -/
def dep_failures (deps : List DepFu) : List Nat :=
  deps.filterMap (fun d =>
    match d.state with
    | some (Except.error e) => if d.final_failure then some e else none
    | _ => none)

/-- `future._exception` as appended to `fail_history` by `handle_exec_update`:
a future that raised stores its exception; a future whose *result* was a
`RemoteExceptionWrapper` completed successfully, so its `_exception` is None. -/
def excOf : FuVal → Option Nat
  | .exn e => some e
  | .remoteExn _ => none
  | .value _ => none

/-- Whether `handle_exec_update`'s `try` block lands in the `except` branch. -/
def isFailure : FuVal → Bool
  | .value _ => false
  | .remoteExn _ => true
  | .exn _ => true

/-- Error code standing for the `DependencyError` raised on the dep-fail
path. -/
def depErrCode : Nat := 0

/-- Modelled from the spec: `AppFuture.update_parent` (§4.1; the `AppFuture`
source `parsl/dataflow/futures.py` is not under `src/`).  Binding the parent
installs a callback that mirrors the parent's result or error onto the
AppFuture; for an already-completed parent the callback fires inline, for a
still-running parent the AppFuture stays not-done until the executor future
completes. -/
def update_parent (tr : TaskRecord) (fu : ExecFu) : TaskRecord :=
  match fu with
  | .running => tr
  | .completed (.value v) => { tr with app_fu := some (Except.ok v) }
  | .completed (.remoteExn e) => { tr with app_fu := some (Except.ok e) }
  | .completed (.exn e) => { tr with app_fu := some (Except.error e) }

/-- Result of the memoizer probe. -/
structure MemoCheck where
  hit : Bool
  fu : Option FuVal
  tr : TaskRecord

/-- Modelled from the spec: `Memoizer.check` (§4.7; `parsl/dataflow/memoization.py`
is not under `src/`).  When memoization is enabled globally and for the task,
the task's fingerprint is computed and cached on the record as `hashsum`; the
probe reports a hit iff the fingerprint is in the memo table.  For opted-out
tasks the fingerprint is not computed and the probe misses. -/
def check_memo (cfg : Cfg) (table : List (Nat × FuVal)) (tr : TaskRecord) : MemoCheck :=
  if cfg.app_cache && tr.memoize then
    let tr1 := { tr with hashsum := some tr.fingerprint }
    match List.lookup tr.fingerprint table with
    | some fu => { hit := true, fu := some fu, tr := tr1 }
    | none => { hit := false, fu := none, tr := tr1 }
  else { hit := false, fu := none, tr := tr }

/-- Modelled from the spec: `Memoizer.update` (§4.7).  A task that opted in to
memoization and reached a successful terminal state is stored under its
fingerprint; a failed task must not populate the cache.  Dict assignment is
modelled by prepending (lookup takes the first match, so the new entry wins). -/
def update_memo (cfg : Cfg) (table : List (Nat × FuVal)) (tr : TaskRecord) :
    List (Nat × FuVal) :=
  if cfg.app_cache && tr.memoize then
    match tr.hashsum, tr.app_fu with
    | some h, some (Except.ok v) => (h, FuVal.value v) :: table
    | _, _ => table
  else table

/-- `DataFlowKernel.handle_app_update`: post-processing once the AppFuture is
terminal.  Unless invoked as a memo callback it updates the memoizer and, in
`task_exit` checkpoint mode, checkpoints the task.  (The stage-out walk is
vacuous here because modelled tasks have no remote output files.) -/
def handle_app_update (cfg : Cfg) (st : DFKState) (tid : Nat) (memo_cbk : Bool) :
    DFKState × List Ev :=
  match getTask st tid with
  | none => (st, [])
  | some tr =>
    if memo_cbk then (st, [])
    else
      let st1 := { st with memo_table := update_memo cfg st.memo_table tr }
      if cfg.checkpoint_mode = some "task_exit" then (st1, [Ev.checkpointTasks tid])
      else (st1, [])

/-- Result of the status-update block at the top of `handle_exec_update`
(the `try`/`except`/`else` statement): the updated record, the deltas applied
to `tasks_completed_count` and `tasks_failed_count`, and whether the eager
path returned early. -/
structure StatusUpdate where
  tr : TaskRecord
  completed_delta : Nat
  failed_delta : Nat
  eager_return : Bool

/-- The status-update block of `DataFlowKernel.handle_exec_update`
(dflow.py lines 289-326), factored out of the interpreter so that claims can
speak about the status the block assigns before any relaunch overwrites it. -/
def exec_update_status (cfg : Cfg) (now : Nat) (tr : TaskRecord) (future : FuVal) :
    StatusUpdate :=
  match future with
  | .value _ =>
    { tr := { tr with status := .done, time_returned := some now },
      completed_delta := 1, failed_delta := 0, eager_return := false }
  | f =>
    let tr1 := { tr with fail_history := tr.fail_history ++ [excOf f],
                         fail_count := tr.fail_count + 1 }
    if cfg.lazy_errors = false then
      { tr := { tr1 with status := .failed },
        completed_delta := 0, failed_delta := 0, eager_return := true }
    else if tr1.fail_count ≤ cfg.retries then
      { tr := { tr1 with status := .pending },
        completed_delta := 0, failed_delta := 0, eager_return := false }
    else
      { tr := { tr1 with status := .failed, time_returned := some now },
        completed_delta := 0, failed_delta := 1, eager_return := false }

/-- The three mutually recursive kernel entry points. -/
inductive Call where
  | handleExecUpdate (tid : Nat) (future : FuVal)
  | launchIfReady (tid : Nat)
  | launchTask (tid : Nat)
deriving DecidableEq, Repr

/-- Fuel-indexed interpreter for the mutual recursion between
`handle_exec_update`, `launch_if_ready` and `launch_task`
(dflow.py lines 272-511).  Fuel 0 performs nothing; each nested call costs one
unit of fuel, so any claim about these functions is stated with enough fuel
for the call chain it exercises.  The third component is the future returned
by `launch_task` (and `none` for the other two entry points).

Faithfulness notes: the per-task `task_launch_lock` acquire/recheck becomes
the status recheck alone (the embedding is sequential); monitoring sends and
log lines are dropped; `sanitize_and_wrap`'s rewriting of `args`/`kwargs` is
not tracked because arguments are abstracted, but its dependency-error
collection (`dep_failures`) and the `_count_deps` gate are kept exactly. -/
def dfk_run (cfg : Cfg) : Nat → Call → DFKState → DFKState × List Ev × Option ExecFu
  | 0, _, st => (st, [], none)
  | fuel + 1, .handleExecUpdate tid future, st =>
    match getTask st tid with
    | none => (st, [], none)
    | some tr =>
      let u := exec_update_status cfg st.now tr future
      let st1 := { setTask st tid u.tr with
                   tasks_completed_count := st.tasks_completed_count + u.completed_delta,
                   tasks_failed_count := st.tasks_failed_count + u.failed_delta }
      if u.eager_return then (st1, [], none)
      else if u.tr.status = .pending then
        let r := dfk_run cfg fuel (.launchIfReady tid) st1
        (r.1, Ev.launchIfReadyCalled tid :: r.2.1, none)
      else (st1, [], none)
  | fuel + 1, .launchIfReady tid, st =>
    match getTask st tid with
    | none => (st, [], none)
    | some tr =>
      if count_deps tr.depends = 0 then
        if dep_failures tr.depends = [] then
          if tr.status = .pending then
            let r := dfk_run cfg fuel (.launchTask tid) st
            match r.2.2 with
            | some fu =>
              match getTask r.1 tid with
              | none => (r.1, Ev.launchTaskCalled tid :: r.2.1, none)
              | some tr1 =>
                let tr2 := update_parent { tr1 with exec_fu := some fu } fu
                (setTask r.1 tid tr2, Ev.launchTaskCalled tid :: r.2.1, none)
            | none => (r.1, Ev.launchTaskCalled tid :: r.2.1, none)
          else (st, [], none)
        else
          let fu : ExecFu := .completed (.exn depErrCode)
          let tr1 := update_parent { tr with status := .dep_fail, exec_fu := some fu } fu
          (setTask st tid tr1, [], none)
      else (st, [], none)
  | fuel + 1, .launchTask tid, st =>
    match getTask st tid with
    | none => (st, [], none)
    | some tr =>
      let tr0 := { tr with time_submitted := some st.now }
      let st0 := setTask st tid tr0
      let cm := check_memo cfg st0.memo_table tr0
      let st1 := setTask st0 tid cm.tr
      match cm.fu with
      | some memoFu =>
        let r1 := dfk_run cfg fuel (.handleExecUpdate tid memoFu) st1
        let r2 := handle_app_update cfg r1.1 tid true
        (r2.1, r1.2.1 ++ r2.2, some (.completed memoFu))
      | none =>
        let st2 := setTask st1 tid { cm.tr with status := .launched }
        (st2, [Ev.submitToExecutor tid], some .running)

/-- `DataFlowKernel.handle_exec_update` (entry point wrapper). -/
def handle_exec_update (cfg : Cfg) (fuel : Nat) (st : DFKState) (tid : Nat)
    (future : FuVal) : DFKState × List Ev :=
  let r := dfk_run cfg fuel (.handleExecUpdate tid future) st
  (r.1, r.2.1)

/-- `DataFlowKernel.launch_if_ready` (entry point wrapper). -/
def launch_if_ready (cfg : Cfg) (fuel : Nat) (st : DFKState) (tid : Nat) :
    DFKState × List Ev :=
  let r := dfk_run cfg fuel (.launchIfReady tid) st
  (r.1, r.2.1)

/-- The `executors` argument of `DataFlowKernel.submit`: a string or a list of
executor labels. -/
inductive ExecutorsArg where
  | str (s : String)
  | labels (ls : List String)
deriving DecidableEq, Repr

/-- Python `str.lower()`, character by character (the executor labels at play
are ASCII). -/
def pyLower (s : String) : String :=
  String.mk (s.data.map Char.toLower)

/-- The `task_def` dictionary built by `DataFlowKernel.submit`
(dflow.py lines 678-696). -/
def mkTaskRecord (task_id : Nat) (executor : String) (cache : Bool)
    (fingerprint : Nat) (depends : List DepFu) : TaskRecord :=
  { id := task_id, status := .unsched, fail_count := 0, fail_history := [],
    time_submitted := none, time_returned := none, memoize := cache,
    fingerprint := fingerprint, hashsum := none, app_fu := none,
    exec_fu := none, depends := depends, executor := executor }

/-- The `choices` assignment at the top of `submit` (dflow.py lines 669-672):
a string must compare case-insensitively equal to `'all'`; a list is taken as
is; anything else leaves `choices` unassigned (`none`). -/
def submit_choices (labels : List String) : ExecutorsArg → Option (List String)
  | .str s =>
    if pyLower s = "all" then
      some (labels.filter (fun e => e ≠ "data_manager"))
    else none
  | .labels ls => some ls

/-- `DataFlowKernel.submit` (dflow.py lines 638-750).  The state is returned
alongside the outcome because a raised exception leaves already-applied
mutations (such as the `task_count` increment) in place.  `pick` stands for
the draw made by `random.choice`; the task's function and arguments are
abstracted into `fingerprint` (its memoization hash) and `depends` (its
gathered dependency futures).  The AppFuture is created not-done; dependency
callbacks are installed for later delivery (the driver below feeds completion
callbacks explicitly), and `launch_if_ready` is called once, exactly as the
source does after setting the task pending. -/
def submit (cfg : Cfg) (fuel : Nat) (st : DFKState) (executors : ExecutorsArg)
    (pick : Nat) (cache : Bool) (fingerprint : Nat) (depends : List DepFu) :
    DFKState × Except String (Nat × List Ev) :=
  let task_id := st.task_count
  let st := { st with task_count := st.task_count + 1 }
  match submit_choices st.executor_labels executors with
  | none => (st, Except.error "UnboundLocalError")
  | some cs =>
    if cs.isEmpty then (st, Except.error "IndexError")
    else
      let executor := cs.getD (pick % cs.length) ""
      let task_def := mkTaskRecord task_id executor cache fingerprint depends
      if (st.tasks task_id).isSome then (st, Except.error "DuplicateTaskError")
      else
        let st := { st with
                    tasks := fun i => if i = task_id then some task_def else st.tasks i,
                    task_ids := st.task_ids ++ [task_id] }
        let st := setTask st task_id { task_def with status := .pending }
        let r := dfk_run cfg fuel (.launchIfReady task_id) st
        (r.1, Except.ok (task_id, r.2.1))

/-- Deliver a sequence of executor-future completion callbacks for task `tid`,
each one entering `handle_exec_update` as `add_done_callback` arranges. -/
def run_callbacks (cfg : Cfg) (fuel : Nat) (tid : Nat) :
    DFKState → List FuVal → DFKState × List Ev
  | st, [] => (st, [])
  | st, f :: fs =>
    let r := dfk_run cfg fuel (.handleExecUpdate tid f) st
    let r2 := run_callbacks cfg fuel tid r.1 fs
    (r2.1, r.2.1 ++ r2.2)

/-- A whole task lifetime: one `submit` followed by the completion callbacks
of the successive execution attempts. -/
def task_run (cfg : Cfg) (fuel : Nat) (st : DFKState) (executors : ExecutorsArg)
    (pick : Nat) (cache : Bool) (fingerprint : Nat) (depends : List DepFu)
    (cbs : List FuVal) : DFKState × List Ev :=
  let tid := st.task_count
  match submit cfg fuel st executors pick cache fingerprint depends with
  | (st1, Except.error _) => (st1, [])
  | (st1, Except.ok (_, evs)) =>
    let r := run_callbacks cfg fuel tid st1 cbs
    (r.1, evs ++ r.2)

/-- Number of `launch_task` invocations for task `tid` recorded in a trace. -/
def countLaunches (tid : Nat) (evs : List Ev) : Nat :=
  (evs.filter (fun e => decide (e = Ev.launchTaskCalled tid))).length

/-- The task a kernel entry point is invoked for. -/
def callTid : Call → Nat
  | .handleExecUpdate tid _ => tid
  | .launchIfReady tid => tid
  | .launchTask tid => tid

/-- Launch allowance of one entry point beyond the task's failure increments:
only `launch_if_ready` may invoke `launch_task` without a preceding failure. -/
def callSlack : Call → Nat
  | .launchIfReady _ => 1
  | _ => 0

/-- The task's `fail_count`, or 0 when the task does not exist. -/
def failCount (st : DFKState) (tid : Nat) : Nat :=
  match st.tasks tid with
  | none => 0
  | some tr => tr.fail_count

/-- Observable steps performed by `DataFlowKernel.cleanup`. -/
inductive CEvent where
  | logTaskStates
  | checkpointAll
  | stopCheckpointTimer
  | usageSend
  | usageClose
  | flowcontrolClose
  | scaleInAll (label : String) (n : Nat)
  | shutdownExecutor (label : String)
  | monitoringSend
  | monitoringClose
deriving DecidableEq, Repr

/-- `DataFlowKernel.cleanup` (dflow.py lines 820-885): raise if already
cleaned up, then summarize task states, run a final checkpoint when a
checkpoint mode is configured (stopping the periodic timer), send final usage
stats, close flow control, scale in and shut down each managed executor,
stamp `time_completed`, and emit/close monitoring.  Checkpointing and the
executor calls are recorded as events; none of the steps consults or awaits
any task's AppFuture. -/
def cleanup (cfg : Cfg) (st : DFKState) : Except String (DFKState × List CEvent) :=
  if st.cleanup_called then
    Except.error "attempt to clean up DFK when it has already been cleaned-up"
  else
    let st := { st with cleanup_called := true }
    let evs0 := [CEvent.logTaskStates]
    let evs1 :=
      if cfg.checkpoint_mode.isSome then
        CEvent.checkpointAll ::
          (if st.has_checkpoint_timer then [CEvent.stopCheckpointTimer] else [])
      else []
    let evs2 := [CEvent.usageSend, CEvent.usageClose, CEvent.flowcontrolClose]
    let evs3 := (st.executor_infos.map (fun e =>
      if e.managed then
        (if e.scaling_enabled then [CEvent.scaleInAll e.label e.resource_count] else [])
          ++ [CEvent.shutdownExecutor e.label]
      else [])).flatten
    let st := { st with time_completed := some st.now }
    let evs4 :=
      if st.monitoring then [CEvent.monitoringSend, CEvent.monitoringClose] else []
    Except.ok (st, evs0 ++ evs1 ++ evs2 ++ evs3 ++ evs4)

/-- Modelled from the spec: `Future.exception()` blocks until the future is
done (§4.1; the AppFuture source is not under `src/`).  In this
single-threaded embedding a not-yet-done future never completes, so the
blocking call is modelled as divergence (`none`); on a done future it returns
the error, or `none`-the-value for a success. -/
def await_exception (fu : Option (Except Nat Nat)) : Option (Option Nat) :=
  match fu with
  | none => none
  | some (Except.ok _) => some none
  | some (Except.error e) => some (some e)

/-- `DataFlowKernel.wait_for_current_tasks` (dflow.py lines 804-818): walk the
task list; for every task whose AppFuture is not done, block on
`fut.exception()`.  The fold returns `some ()` exactly when the walk runs to
completion (i.e. no blocking call diverges). -/
def wait_for_current_tasks (st : DFKState) : Option Unit :=
  st.task_ids.foldl
    (fun acc tid =>
      acc.bind fun _ =>
        match st.tasks tid with
        | none => some ()
        | some tr =>
          if tr.app_fu.isSome then some ()
          else (await_exception tr.app_fu).map fun _ => ())
    (some ())

end Dflow

namespace Checkpoint

/-- One record of a `tasks.pkl` checkpoint log, as written by
`DataFlowKernel.checkpoint`: the memoization hash plus either an exception or
a result (the result itself may be Python `None`, hence `Option`). -/
structure CkptRecord where
  hash : Nat
  exception : Option Nat
  result : Option Nat
deriving Repr

/-- One checkpoint directory.  `log = none` models a missing `tasks.pkl`
(`FileNotFoundError` on `open`); otherwise the log is the sequence of complete
records followed, when the flag is `true`, by a truncated final record (which
`pickle.load` surfaces as `EOFError`). -/
structure CkptDir where
  log : Option (List CkptRecord × Bool)

/-- Reconstitution of one record into a completed future
(dflow.py lines 996-1002): a truthy exception is set as the future's
exception, otherwise the stored result is set as its value. -/
def reconstitute (r : CkptRecord) : Except Nat (Option Nat) :=
  match r.exception with
  | some e => Except.error e
  | none => Except.ok r.result

/-- The per-directory read loop of `_load_checkpoints`: records are read until
EOF and entered into the lookup table keyed by their hash (dict assignment:
a later record with the same hash overrides an earlier one). -/
def load_dir (tbl : Nat → Option (Except Nat (Option Nat))) (recs : List CkptRecord) :
    Nat → Option (Except Nat (Option Nat)) :=
  recs.foldl
    (fun t r => fun h => if h = r.hash then some (reconstitute r) else t h) tbl

/-- Processing of one checkpoint directory by `_load_checkpoints`: a missing
`tasks.pkl` raises `BadCheckpoint`; otherwise the complete records are read
(the truncated tail, surfacing as `EOFError`, just ends the loop). -/
def load_step (tbl : Nat → Option (Except Nat (Option Nat))) (d : CkptDir) :
    Except String (Nat → Option (Except Nat (Option Nat))) :=
  match d.log with
  | none => Except.error "BadCheckpoint: Checkpoint file was not found"
  | some (recs, _truncated) => Except.ok (load_dir tbl recs)

/-- `DataFlowKernel._load_checkpoints` (dflow.py lines 970-1020): fold the
directories into one memo lookup table; a directory whose `tasks.pkl` is
missing raises `BadCheckpoint`; a truncated final record ends that
directory's log (`EOFError` breaks the loop) and is otherwise ignored. -/
def load_checkpoints (dirs : List CkptDir) :
    Except String (Nat → Option (Except Nat (Option Nat))) :=
  dirs.foldlM load_step (fun _ => none)

/-- Erase the truncated-tail flag of a directory's log. -/
def clearTail (d : CkptDir) : CkptDir :=
  { log := d.log.map (fun p => (p.1, false)) }

end Checkpoint

namespace Strategy

/-- One entry of `executor.status()`. -/
inductive BlockStatus where
  | RUNNING
  | SUBMITTING
  | PENDING
  | other
deriving DecidableEq, Repr

/-- The executor varieties the strategy code dispatches on via `isinstance`
(executors that are not of these kinds have `scaling_enabled` false and are
skipped before the body runs). -/
inductive ExKind where
  | ipp
  | htex
  | exs
deriving DecidableEq, Repr

/-- One manager record of `executor.connected_workers`. -/
structure Manager where
  block_id : Nat
  tasks : Nat
  worker_count : Nat
  active : Bool
deriving DecidableEq, Repr

/-- What one strategy tick observes about one executor (after the
`scaling_enabled` gate).  `max_workers = none` models `float('inf')`. -/
structure Obs where
  kind : ExKind
  outstanding : Nat
  statusList : List BlockStatus
  workers_per_node : Nat
  ranks_per_node : Nat
  max_workers : Option Nat
  connected_workers : List Manager
  min_blocks : Nat
  max_blocks : Nat
  nodes_per_block : Nat
  parallelism : ℚ
deriving Repr

/-- The per-executor strategy bookkeeping (`self.executors[label]`). -/
structure StState where
  idle_since : Option ℚ
deriving DecidableEq, Repr

/-- Scaling commands issued to the executor during one tick. -/
inductive SEvent where
  | scaleIn (n : Nat)
  | scaleOut (n : ℤ)
  | scaleInBlocks (n : Nat) (block_ids : List Nat)
deriving DecidableEq, Repr

def countStatus (s : BlockStatus) (l : List BlockStatus) : Nat :=
  (l.filter (fun x => decide (x = s))).length

/-- `active_blocks = running + submitting + pending`. -/
def active_blocks (o : Obs) : Nat :=
  countStatus .RUNNING o.statusList + countStatus .SUBMITTING o.statusList +
    countStatus .PENDING o.statusList

/-- `tasks_per_node` as computed by `_strategy_simple`
(strategy.py lines 187-194): IPP reports `workers_per_node`, HTEX is fixed at
1, extreme-scale reports `ranks_per_node`. -/
def tpn_simple (o : Obs) : Nat :=
  match o.kind with
  | .ipp => o.workers_per_node
  | .htex => 1
  | .exs => o.ranks_per_node

/-- `tasks_per_node` as computed by the htex strategies
(strategy.py lines 316-329): HTEX takes the first connected manager's
`worker_count`, else a finite `max_workers`, else 1. -/
def tpn_htex (o : Obs) : Nat :=
  match o.kind with
  | .ipp => o.workers_per_node
  | .htex =>
    match o.connected_workers with
    | m :: _ => m.worker_count
    | [] =>
      match o.max_workers with
      | some n => n
      | none => 1
  | .exs => o.ranks_per_node

/-- Python truthiness of the stored `idle_since` (`if not idle_since`). -/
def pyFalsy (o : Option ℚ) : Bool :=
  match o with
  | none => true
  | some t => decide (t = 0)

/-- `self.max_idletime = 60 * 2`. -/
def max_idletime : ℚ := 120

/-- Case 1b of every strategy variant (idle executor above `min_blocks`):
start the kill timer if it is not running, and scale in down to `min_blocks`
once `max_idletime` is exceeded.  Shared verbatim by the variants. -/
def idle_case (now : ℚ) (st : StState) (ab mb : Nat) : StState × List SEvent :=
  let st1 := if pyFalsy st.idle_since then { st with idle_since := some now } else st
  match st1.idle_since with
  | none => (st1, [])
  | some idle_since =>
    if max_idletime < now - idle_since then (st1, [SEvent.scaleIn (ab - mb)])
    else (st1, [])

/-- One executor's share of `Strategy._strategy_simple`
(strategy.py lines 158-282), with `now` the value of `time.time()`. -/
def strategy_simple_tick (now : ℚ) (st : StState) (o : Obs) : StState × List SEvent :=
  let tasks_per_node := tpn_simple o
  let ab := active_blocks o
  let active_slots := ab * tasks_per_node * o.nodes_per_block
  if o.outstanding = 0 then
    if ab ≤ o.min_blocks then (st, [])
    else idle_case now st ab o.min_blocks
  else if (active_slots : ℚ) / (o.outstanding : ℚ) < o.parallelism then
    if o.max_blocks ≤ ab then (st, [])
    else
      let excess : ℤ := ⌈(o.outstanding : ℚ) * o.parallelism - (active_slots : ℚ)⌉
      let excess_blocks : ℤ :=
        ⌈(excess : ℚ) / ((tasks_per_node : ℚ) * (o.nodes_per_block : ℚ))⌉
      let to_request : ℤ := min ((o.max_blocks : ℤ) - (ab : ℤ)) excess_blocks
      (st, [SEvent.scaleOut to_request])
  else if active_slots = 0 ∧ 0 < o.outstanding then (st, [SEvent.scaleOut 1])
  else (st, [])

/-- The empty-block drain list of the htex over-provisioned case: group the
connected managers by `block_id` preserving first-seen order (a Python dict). -/
def groupByBlock (ms : List Manager) : List (Nat × List Manager) :=
  ms.foldl
    (fun acc m =>
      if acc.any (fun p => decide (p.1 = m.block_id)) then
        acc.map (fun p => if p.1 = m.block_id then (p.1, p.2 ++ [m]) else p)
      else acc ++ [(m.block_id, [m])])
    []

/-- Blocks whose in-flight task total is zero and whose managers are all
active, in the order the case-4 loop visits them. -/
def drainable_blocks (ms : List Manager) : List Nat :=
  (groupByBlock ms).filterMap (fun p =>
    if (p.2.map (fun m => m.tasks)).sum = 0 ∧ p.2.all (fun m => m.active) then
      some p.1
    else none)

/-- One executor's share of `Strategy._htex_strategy`
(strategy.py lines 284-442).  It differs from `_strategy_simple` in the
`tasks_per_node` computation, in only issuing a non-zero case-2b request, and
in the extra over-provisioned case that drains every empty active block. -/
def htex_strategy_tick (now : ℚ) (st : StState) (o : Obs) : StState × List SEvent :=
  let tasks_per_node := tpn_htex o
  let ab := active_blocks o
  let active_slots := ab * tasks_per_node * o.nodes_per_block
  if o.outstanding = 0 then
    if ab ≤ o.min_blocks then (st, [])
    else idle_case now st ab o.min_blocks
  else if (active_slots : ℚ) / (o.outstanding : ℚ) < o.parallelism then
    if o.max_blocks ≤ ab then (st, [])
    else
      let excess : ℤ := ⌈(o.outstanding : ℚ) * o.parallelism - (active_slots : ℚ)⌉
      let excess_blocks : ℤ :=
        ⌈(excess : ℚ) / ((tasks_per_node : ℚ) * (o.nodes_per_block : ℚ))⌉
      let to_request : ℤ := min ((o.max_blocks : ℤ) - (ab : ℤ)) excess_blocks
      if to_request = 0 then (st, []) else (st, [SEvent.scaleOut to_request])
  else if active_slots = 0 ∧ 0 < o.outstanding then (st, [SEvent.scaleOut 1])
  else if 0 < active_slots ∧ o.outstanding < active_slots then
    if o.kind = .htex then
      (st, (drainable_blocks o.connected_workers).map
        (fun b => SEvent.scaleInBlocks 1 [b]))
    else (st, [])
  else (st, [])

/-- Number of `scale_in` invocations in a tick's command list. -/
def countScaleIns (evs : List SEvent) : Nat :=
  (evs.filter (fun e =>
    match e with
    | SEvent.scaleIn _ => true
    | SEvent.scaleInBlocks _ _ => true
    | SEvent.scaleOut _ => false)).length

/-- `active_slots` as `_strategy_simple` computes it. -/
def active_slots_simple (o : Obs) : Nat :=
  active_blocks o * tpn_simple o * o.nodes_per_block

/-- `active_slots` as `_htex_strategy` computes it. -/
def active_slots_htex (o : Obs) : Nat :=
  active_blocks o * tpn_htex o * o.nodes_per_block

end Strategy

namespace Examples

open Dflow Checkpoint Strategy

/-- An empty kernel state with a single (non-staging) executor. -/
def st0 : DFKState :=
  { tasks := fun _ => none, task_ids := [], task_count := 0,
    tasks_completed_count := 0, tasks_failed_count := 0, now := 0,
    memo_table := [], executor_labels := ["threads"], cleanup_called := false,
    has_checkpoint_timer := false, executor_infos := [], time_completed := none,
    monitoring := false }

/-- Retry configuration: one retry, lazy errors, no caching. -/
def cfgRetry : Cfg :=
  { retries := 1, lazy_errors := true, app_cache := true, checkpoint_mode := none }

/-- Eager configuration: `lazy_errors` disabled. -/
def cfgEager : Cfg :=
  { retries := 1, lazy_errors := false, app_cache := true, checkpoint_mode := none }

/-- Memoization configuration. -/
def cfgMemo : Cfg :=
  { retries := 0, lazy_errors := true, app_cache := true, checkpoint_mode := none }

/-- A dependency-free pending task record opted in to memoization, with
fingerprint 42. -/
def memoTask : TaskRecord :=
  { id := 0, status := .pending, fail_count := 0, fail_history := [],
    time_submitted := none, time_returned := none, memoize := true,
    fingerprint := 42, hashsum := none, app_fu := none, exec_fu := none,
    depends := [], executor := "threads" }

/-- A kernel holding `memoTask` and a memo-table entry for its fingerprint. -/
def memoState : DFKState :=
  { st0 with tasks := fun i => if i = 0 then some memoTask else none,
             task_ids := [0], task_count := 1,
             memo_table := [(42, FuVal.value 17)] }

/-- The lifetime of one retried task: a fresh submission whose first execution
attempt fails (`retries = 1`, lazy errors), forcing one relaunch. -/
def retryRun : DFKState × List Ev :=
  task_run cfgRetry 6 st0 (.str "all") 0 false 0 [] [FuVal.exn 7]

/-- A pending task whose AppFuture is not yet done. -/
def hangTask : TaskRecord :=
  { memoTask with memoize := false, fingerprint := 0 }

/-- A kernel state with one not-done AppFuture and one managed executor,
ready for `cleanup`. -/
def hangState : DFKState :=
  { st0 with tasks := fun i => if i = 0 then some hangTask else none,
             task_ids := [0], task_count := 1,
             executor_infos := [{ label := "threads", managed := true,
                                  scaling_enabled := false, resource_count := 0 }] }

/-- A kernel state whose only task has a completed AppFuture. -/
def doneState : DFKState :=
  { st0 with
      tasks := fun i =>
        if i = 0 then some { hangTask with status := .done,
                                           app_fu := some (Except.ok 5) }
        else none,
      task_ids := [0], task_count := 1 }

/-- A kernel state for `handle_exec_update` claims: one launched task with no
failures so far. -/
def launchedState : DFKState :=
  { st0 with
      tasks := fun i =>
        if i = 0 then some { hangTask with status := .launched } else none,
      task_ids := [0], task_count := 1, now := 33 }

/-- A checkpoint directory whose log holds one complete record and a
truncated tail. -/
def ckptDir1 : CkptDir :=
  { log := some ([{ hash := 5, exception := none, result := some 3 }], true) }

/-- An observation with outstanding work (a non-idle observation) for an
executor whose kill timer is running. -/
def busyObs : Obs :=
  { kind := .ipp, outstanding := 3, statusList := [.RUNNING],
    workers_per_node := 1, ranks_per_node := 1, max_workers := none,
    connected_workers := [], min_blocks := 0, max_blocks := 10,
    nodes_per_block := 1, parallelism := 0 }

/-- An over-provisioned htex observation with two drainable blocks. -/
def overObs : Obs :=
  { kind := .htex, outstanding := 1, statusList := [.RUNNING],
    workers_per_node := 1, ranks_per_node := 1, max_workers := none,
    connected_workers :=
      [{ block_id := 0, tasks := 0, worker_count := 4, active := true },
       { block_id := 1, tasks := 0, worker_count := 4, active := true }],
    min_blocks := 0, max_blocks := 10, nodes_per_block := 1, parallelism := 0 }

/-- An under-provisioned observation: five outstanding tasks, no blocks yet,
`parallelism = 1`, `max_blocks = 4`. -/
def underObs : Obs :=
  { kind := .ipp, outstanding := 5, statusList := [],
    workers_per_node := 1, ranks_per_node := 1, max_workers := none,
    connected_workers := [], min_blocks := 0, max_blocks := 4,
    nodes_per_block := 1, parallelism := 1 }

end Examples

end Parsl

namespace Parsl

namespace Dflow

theorem getTask_setTask_same (st : DFKState) (tid : Nat) (tr : TaskRecord) :
    getTask (setTask st tid tr) tid = some tr := by
  simp [getTask, setTask]

theorem countLaunches_nil (tid : Nat) : countLaunches tid [] = 0 := rfl

theorem countLaunches_cons (tid : Nat) (e : Ev) (evs : List Ev) :
    countLaunches tid (e :: evs) =
      (if e = Ev.launchTaskCalled tid then 1 else 0) + countLaunches tid evs := by
  by_cases h : e = Ev.launchTaskCalled tid <;>
    simp [countLaunches, List.filter_cons, h, Nat.add_comm]

theorem countLaunches_append (tid : Nat) (a b : List Ev) :
    countLaunches tid (a ++ b) = countLaunches tid a + countLaunches tid b := by
  simp [countLaunches, List.filter_append]

/-- Claim C9: `submit` called with a string `executors` argument other than
`'all'` (case-insensitively) assigns no `choices` list, so `random.choice`
raises an unhandled `UnboundLocalError` before any task record is created:
the task dict and its key list are untouched (only `task_count` was already
incremented). -/
theorem claim_C9 (cfg : Cfg) (fuel : Nat) (st : DFKState) (s : String)
    (pick : Nat) (cache : Bool) (fp : Nat) (deps : List DepFu)
    (h : pyLower s ≠ "all") :
    (submit cfg fuel st (.str s) pick cache fp deps).2
        = Except.error "UnboundLocalError" ∧
    (submit cfg fuel st (.str s) pick cache fp deps).1.tasks = st.tasks ∧
    (submit cfg fuel st (.str s) pick cache fp deps).1.task_ids = st.task_ids := by
  simp [submit, submit_choices, h]

/-- Witness for C9 at the concrete argument `executors='htex'`. -/
theorem claim_C9_witness :
    (submit Examples.cfgRetry 3 Examples.st0 (.str "htex") 0 false 0 []).2
        = Except.error "UnboundLocalError" ∧
    (submit Examples.cfgRetry 3 Examples.st0 (.str "htex") 0 false 0 []).1.tasks
        = Examples.st0.tasks ∧
    (submit Examples.cfgRetry 3 Examples.st0 (.str "htex") 0 false 0 []).1.task_ids
        = Examples.st0.task_ids :=
  claim_C9 Examples.cfgRetry 3 Examples.st0 "htex" 0 false 0 [] (by decide)

/-- Claim C4: on a failed execution attempt with lazy errors, the status
block sets the task pending when the incremented `fail_count` is within the
retry budget, and `handle_exec_update` then calls `launch_if_ready`;
otherwise it marks the task failed, bumps `tasks_failed_count` and stamps
`time_returned`. -/
theorem claim_C4 (cfg : Cfg) (fuel : Nat) (st : DFKState) (tid : Nat)
    (tr : TaskRecord) (future : FuVal)
    (htask : st.tasks tid = some tr) (hfail : isFailure future = true)
    (hlazy : cfg.lazy_errors = true) :
    (tr.fail_count + 1 ≤ cfg.retries →
      (exec_update_status cfg st.now tr future).tr.status = .pending ∧
      Ev.launchIfReadyCalled tid ∈
        (handle_exec_update cfg (fuel + 1) st tid future).2) ∧
    (cfg.retries < tr.fail_count + 1 →
      ∃ tr', (handle_exec_update cfg (fuel + 1) st tid future).1.tasks tid = some tr' ∧
        tr'.status = .failed ∧ tr'.time_returned = some st.now ∧
        (handle_exec_update cfg (fuel + 1) st tid future).1.tasks_failed_count
          = st.tasks_failed_count + 1) := by
  cases future with
  | value v => simp [isFailure] at hfail
  | remoteExn e =>
    constructor
    · intro hle
      constructor
      · simp [exec_update_status, hlazy, hle]
      · simp [handle_exec_update, dfk_run, getTask, htask, exec_update_status,
              hlazy, hle]
    · intro hgt
      have hnle : ¬ (tr.fail_count + 1 ≤ cfg.retries) := by omega
      simp [handle_exec_update, dfk_run, getTask, htask, exec_update_status,
            hlazy, hnle, setTask]
  | exn e =>
    constructor
    · intro hle
      constructor
      · simp [exec_update_status, hlazy, hle]
      · simp [handle_exec_update, dfk_run, getTask, htask, exec_update_status,
              hlazy, hle]
    · intro hgt
      have hnle : ¬ (tr.fail_count + 1 ≤ cfg.retries) := by omega
      simp [handle_exec_update, dfk_run, getTask, htask, exec_update_status,
            hlazy, hnle, setTask]

/-- Witness for C4 on a first failure within the retry budget. -/
theorem claim_C4_witness :
    (exec_update_status Examples.cfgRetry Examples.launchedState.now
        Examples.hangTask (FuVal.exn 9)).tr.status = .pending ∧
    Ev.launchIfReadyCalled 0 ∈
      (handle_exec_update Examples.cfgRetry 3 Examples.launchedState 0
        (FuVal.exn 9)).2 :=
  (claim_C4 Examples.cfgRetry 2 Examples.launchedState 0
      { Examples.hangTask with status := .launched } (FuVal.exn 9)
      rfl rfl rfl).1 (by decide)

/-- Claim C10: an eager-mode (`lazy_errors` off) failure marks the task
failed but leaves `time_returned` and `tasks_failed_count` untouched; on the
lazy retry path within budget they are equally untouched, so both fields are
updated among failure paths only when retries are exhausted. -/
theorem claim_C10 (cfg : Cfg) (fuel : Nat) (st : DFKState) (tid : Nat)
    (tr : TaskRecord) (future : FuVal)
    (htask : st.tasks tid = some tr) (hfail : isFailure future = true) :
    (cfg.lazy_errors = false →
      ∃ tr', (handle_exec_update cfg (fuel + 1) st tid future).1.tasks tid = some tr' ∧
        tr'.status = .failed ∧ tr'.time_returned = tr.time_returned ∧
        (handle_exec_update cfg (fuel + 1) st tid future).1.tasks_failed_count
          = st.tasks_failed_count) ∧
    (cfg.lazy_errors = true → tr.fail_count + 1 ≤ cfg.retries →
      (exec_update_status cfg st.now tr future).tr.time_returned = tr.time_returned ∧
      (exec_update_status cfg st.now tr future).failed_delta = 0) := by
  cases future with
  | value v => simp [isFailure] at hfail
  | remoteExn e =>
    constructor
    · intro heager
      simp [handle_exec_update, dfk_run, getTask, htask, exec_update_status,
            heager, setTask]
    · intro hlazy hle
      constructor <;> simp [exec_update_status, hlazy, hle]
  | exn e =>
    constructor
    · intro heager
      simp [handle_exec_update, dfk_run, getTask, htask, exec_update_status,
            heager, setTask]
    · intro hlazy hle
      constructor <;> simp [exec_update_status, hlazy, hle]

/-- Claim C1: when the memoizer probe in `launch_task` hits, the task's
AppFuture completes with the value held by the cached future and the
executor's `submit` is never called for that task. -/
theorem claim_C1 (cfg : Cfg) (fuel : Nat) (st : DFKState) (tid : Nat)
    (tr : TaskRecord) (v : Nat)
    (htask : st.tasks tid = some tr) (hpend : tr.status = .pending)
    (hdeps : count_deps tr.depends = 0) (hdepf : dep_failures tr.depends = [])
    (hcache : cfg.app_cache = true) (hmem : tr.memoize = true)
    (hhit : List.lookup tr.fingerprint st.memo_table = some (FuVal.value v)) :
    (∃ tr', (launch_if_ready cfg (fuel + 2) st tid).1.tasks tid = some tr' ∧
       tr'.app_fu = some (Except.ok v)) ∧
    Ev.submitToExecutor tid ∉ (launch_if_ready cfg (fuel + 2) st tid).2 := by
  cases fuel with
  | zero =>
    simp [launch_if_ready, dfk_run, getTask, setTask, htask, hpend, hdeps,
          hdepf, check_memo, hcache, hmem, hhit, handle_app_update,
          exec_update_status, update_parent]
  | succ n =>
    simp [launch_if_ready, dfk_run, getTask, setTask, htask, hpend, hdeps,
          hdepf, check_memo, hcache, hmem, hhit, handle_app_update,
          exec_update_status, update_parent]

/-- Witness for C1: the concrete memo-hit state completes the AppFuture with
the cached value 17 without an executor submission. -/
theorem claim_C1_witness :
    (∃ tr', (launch_if_ready Examples.cfgMemo 5 Examples.memoState 0).1.tasks 0
        = some tr' ∧ tr'.app_fu = some (Except.ok 17)) ∧
    Ev.submitToExecutor 0 ∉
      (launch_if_ready Examples.cfgMemo 5 Examples.memoState 0).2 :=
  claim_C1 Examples.cfgMemo 3 Examples.memoState 0 Examples.memoTask 17
    rfl rfl rfl rfl rfl rfl rfl

@[simp]
theorem setTask_memo_table (st : DFKState) (tid : Nat) (tr : TaskRecord) :
    (setTask st tid tr).memo_table = st.memo_table := rfl

@[simp]
theorem setTask_now (st : DFKState) (tid : Nat) (tr : TaskRecord) :
    (setTask st tid tr).now = st.now := rfl

theorem failCount_eq_of_getTask {st : DFKState} {tid : Nat} {tr : TaskRecord}
    (h : getTask st tid = some tr) : failCount st tid = tr.fail_count := by
  simp only [failCount, getTask] at h ⊢
  rw [h]

theorem failCount_setTask (st : DFKState) (tid : Nat) (tr : TaskRecord) :
    failCount (setTask st tid tr) tid = tr.fail_count := by
  simp [failCount, setTask]

theorem failCount_counters (st : DFKState) (tid : Nat) (tr : TaskRecord)
    (a b : Nat) :
    failCount { setTask st tid tr with
                tasks_completed_count := a, tasks_failed_count := b } tid
      = tr.fail_count := by
  simp [failCount, setTask]

theorem countLaunches_cons_lir (tid t : Nat) (evs : List Ev) :
    countLaunches tid (Ev.launchIfReadyCalled t :: evs) = countLaunches tid evs := by
  simp [countLaunches, List.filter_cons]

theorem countLaunches_cons_launch (tid : Nat) (evs : List Ev) :
    countLaunches tid (Ev.launchTaskCalled tid :: evs)
      = countLaunches tid evs + 1 := by
  simp [countLaunches, List.filter_cons, Nat.add_comm]

theorem countLaunches_cons_submit (tid t : Nat) (evs : List Ev) :
    countLaunches tid (Ev.submitToExecutor t :: evs) = countLaunches tid evs := by
  simp [countLaunches, List.filter_cons]

theorem exec_update_fail_count_le (cfg : Cfg) (now : Nat) (tr : TaskRecord)
    (f : FuVal) :
    tr.fail_count ≤ (exec_update_status cfg now tr f).tr.fail_count := by
  cases f <;> simp only [exec_update_status] <;>
    (try split) <;> (try split) <;> simp

theorem exec_update_pending_fail_count (cfg : Cfg) (now : Nat) (tr : TaskRecord)
    (f : FuVal)
    (h : (exec_update_status cfg now tr f).tr.status = .pending) :
    (exec_update_status cfg now tr f).tr.fail_count = tr.fail_count + 1 := by
  cases f <;> simp only [exec_update_status] at h ⊢ <;>
    (try split at h) <;> (try split at h) <;> simp_all

theorem update_parent_fail_count (tr : TaskRecord) (fu : ExecFu) :
    (update_parent tr fu).fail_count = tr.fail_count := by
  cases fu with
  | running => rfl
  | completed fv => cases fv <;> rfl

theorem check_memo_tr_fail_count (cfg : Cfg) (tbl : List (Nat × FuVal))
    (tr : TaskRecord) :
    (check_memo cfg tbl tr).tr.fail_count = tr.fail_count := by
  unfold check_memo
  split
  · split <;> rfl
  · rfl

theorem handle_app_update_tasks (cfg : Cfg) (st : DFKState) (tid : Nat)
    (m : Bool) : (handle_app_update cfg st tid m).1.tasks = st.tasks := by
  unfold handle_app_update
  split
  · rfl
  · split
    · rfl
    · split <;> rfl

theorem failCount_handle_app_update (cfg : Cfg) (st : DFKState) (tid t : Nat)
    (m : Bool) :
    failCount (handle_app_update cfg st tid m).1 t = failCount st t := by
  simp only [failCount, handle_app_update_tasks]

theorem handle_app_update_no_launch (cfg : Cfg) (st : DFKState) (tid t : Nat)
    (m : Bool) : countLaunches t (handle_app_update cfg st tid m).2 = 0 := by
  unfold handle_app_update
  split
  · rfl
  · split
    · rfl
    · split <;> simp [countLaunches]

/-- Single-launch accounting for one kernel entry point: the number of
`launch_task` invocations a call triggers (including all nested retries) never
exceeds the task's `fail_count` increase, plus one when the entry point is
`launch_if_ready` itself. -/
theorem dfk_run_launch_bound (cfg : Cfg) :
    ∀ (fuel : Nat) (c : Call) (st : DFKState),
      countLaunches (callTid c) (dfk_run cfg fuel c st).2.1 + failCount st (callTid c)
        ≤ callSlack c + failCount (dfk_run cfg fuel c st).1 (callTid c) := by
  intro fuel
  induction fuel with
  | zero => intro c st; simp [dfk_run, countLaunches]
  | succ n ih =>
    intro c st
    cases c with
    | handleExecUpdate tid future =>
      simp only [dfk_run, callTid, callSlack]
      cases hg : getTask st tid with
      | none => simp [countLaunches]
      | some tr =>
        have hF := failCount_eq_of_getTask hg
        by_cases he : (exec_update_status cfg st.now tr future).eager_return = true
        · simp only [he, if_true]
          rw [countLaunches_nil, hF, failCount_counters]
          have := exec_update_fail_count_le cfg st.now tr future
          omega
        · by_cases hp : (exec_update_status cfg st.now tr future).tr.status = .pending
          · simp only [he, hp, if_true, if_false, Bool.false_eq_true]
            have hfc := exec_update_pending_fail_count cfg st.now tr future hp
            have hih := ih (.launchIfReady tid)
              { setTask st tid (exec_update_status cfg st.now tr future).tr with
                tasks_completed_count := st.tasks_completed_count +
                  (exec_update_status cfg st.now tr future).completed_delta,
                tasks_failed_count := st.tasks_failed_count +
                  (exec_update_status cfg st.now tr future).failed_delta }
            simp only [callTid, callSlack] at hih
            rw [failCount_counters, hfc] at hih
            rw [countLaunches_cons_lir, hF]
            omega
          · simp only [he, hp, if_false, Bool.false_eq_true]
            rw [countLaunches_nil, hF, failCount_counters]
            have := exec_update_fail_count_le cfg st.now tr future
            omega
    | launchIfReady tid =>
      simp only [dfk_run, callTid, callSlack]
      cases hg : getTask st tid with
      | none => simp [countLaunches]
      | some tr =>
        have hF := failCount_eq_of_getTask hg
        by_cases hd : count_deps tr.depends = 0
        · by_cases hdf : dep_failures tr.depends = []
          · by_cases hp : tr.status = .pending
            · simp only [hd, hdf, hp, if_true]
              have hih := ih (.launchTask tid) st
              simp only [callTid, callSlack] at hih
              rw [hF] at hih
              cases hfu : (dfk_run cfg n (.launchTask tid) st).2.2 with
              | none =>
                simp only [hfu]
                rw [countLaunches_cons_launch, hF]
                omega
              | some fu =>
                simp only [hfu]
                cases hg1 : getTask (dfk_run cfg n (.launchTask tid) st).1 tid with
                | none =>
                  simp only []
                  rw [countLaunches_cons_launch, hF]
                  omega
                | some tr1 =>
                  simp only []
                  rw [countLaunches_cons_launch, hF, failCount_setTask,
                      update_parent_fail_count]
                  have hF1 := failCount_eq_of_getTask hg1
                  simp only []
                  rw [hF1] at hih
                  omega
            · simp [hd, hdf, hp, countLaunches]
          · simp only [hd, hdf, if_true, if_false]
            rw [countLaunches_nil, hF, failCount_setTask, update_parent_fail_count]
            simp only []
            omega
        · simp [hd, countLaunches]
    | launchTask tid =>
      simp only [dfk_run, callTid, callSlack]
      cases hg : getTask st tid with
      | none => simp [countLaunches]
      | some tr =>
        have hF := failCount_eq_of_getTask hg
        simp only [setTask_memo_table]
        cases hfu : (check_memo cfg st.memo_table
            { tr with time_submitted := some st.now }).fu with
        | some memoFu =>
          simp only [hfu]
          have hih := ih (.handleExecUpdate tid memoFu)
            (setTask (setTask st tid { tr with time_submitted := some st.now }) tid
              (check_memo cfg st.memo_table
                { tr with time_submitted := some st.now }).tr)
          simp only [callTid, callSlack] at hih
          rw [failCount_setTask, check_memo_tr_fail_count] at hih
          simp only [] at hih
          rw [countLaunches_append, handle_app_update_no_launch,
              failCount_handle_app_update, hF]
          omega
        | none =>
          simp only [hfu]
          rw [countLaunches_cons_submit, countLaunches_nil, hF, failCount_setTask]
          simp only [check_memo_tr_fail_count]
          omega


theorem run_callbacks_launch_bound (cfg : Cfg) (fuel : Nat) (tid : Nat) :
    ∀ (cbs : List FuVal) (st : DFKState),
      countLaunches tid (run_callbacks cfg fuel tid st cbs).2 + failCount st tid
        ≤ failCount (run_callbacks cfg fuel tid st cbs).1 tid := by
  intro cbs
  induction cbs with
  | nil => intro st; simp [run_callbacks, countLaunches]
  | cons f fs ih =>
    intro st
    simp only [run_callbacks]
    rw [countLaunches_append]
    have h1 := dfk_run_launch_bound cfg fuel (.handleExecUpdate tid f) st
    simp only [callTid, callSlack] at h1
    have h2 := ih (dfk_run cfg fuel (.handleExecUpdate tid f) st).1
    omega

theorem launch_if_ready_fresh_bound (cfg : Cfg) (fuel : Nat) (S : DFKState)
    (tid : Nat) (h0 : failCount S tid = 0) :
    countLaunches tid (dfk_run cfg fuel (.launchIfReady tid) S).2.1
      ≤ 1 + failCount (dfk_run cfg fuel (.launchIfReady tid) S).1 tid := by
  have hb := dfk_run_launch_bound cfg fuel (.launchIfReady tid) S
  simp only [callTid, callSlack] at hb
  omega

theorem submit_launch_bound (cfg : Cfg) (fuel : Nat) (st : DFKState)
    (executors : ExecutorsArg) (pick : Nat) (cache : Bool) (fp : Nat)
    (deps : List DepFu) (st1 : DFKState) (tid : Nat) (evs : List Ev)
    (h : submit cfg fuel st executors pick cache fp deps = (st1, Except.ok (tid, evs))) :
    tid = st.task_count ∧ countLaunches tid evs ≤ 1 + failCount st1 tid := by
  unfold submit at h
  cases hc : submit_choices st.executor_labels executors with
  | none => simp only [hc] at h; simp at h
  | some cs =>
    simp only [hc] at h
    by_cases hemp : cs.isEmpty = true
    · simp [hemp] at h
    · simp only [hemp, Bool.false_eq_true, if_false] at h
      by_cases hdup : (st.tasks st.task_count).isSome = true
      · simp [hdup] at h
      · simp only [hdup, Bool.false_eq_true, if_false, Prod.mk.injEq,
                   Except.ok.injEq] at h
        obtain ⟨h1, h2, h3⟩ := h
        subst h1 h2 h3
        refine ⟨rfl, ?_⟩
        exact launch_if_ready_fresh_bound cfg fuel _ _
          (by rw [failCount_setTask]; simp [mkTaskRecord])

/-- Claim C2 (amended): over a task's whole lifetime `launch_task` is invoked
at most once per execution attempt: the number of invocations is bounded by
one (for the initial launch) plus the task's final `fail_count` (each retry
relaunch is preceded by a recorded failure).  It is *not* bounded by one
overall, because a lazy-errors retry re-enters `launch_if_ready`. -/
theorem claim_C2 (cfg : Cfg) (fuel : Nat) (st : DFKState)
    (executors : ExecutorsArg) (pick : Nat) (cache : Bool) (fp : Nat)
    (deps : List DepFu) (cbs : List FuVal) :
    countLaunches st.task_count
        (task_run cfg fuel st executors pick cache fp deps cbs).2
      ≤ 1 + failCount (task_run cfg fuel st executors pick cache fp deps cbs).1
            st.task_count := by
  unfold task_run
  cases h : submit cfg fuel st executors pick cache fp deps with
  | mk st1 res =>
    cases res with
    | error e => simp [countLaunches]
    | ok p =>
      cases p with
      | mk tid evs =>
        obtain ⟨htid, hbound⟩ := submit_launch_bound cfg fuel st executors pick
          cache fp deps st1 tid evs h
        subst htid
        simp only []
        rw [countLaunches_append]
        have h2 := run_callbacks_launch_bound cfg fuel st.task_count cbs st1
        omega

/-- Counterexample to claim C2 as stated: with `retries = 1` and lazy errors,
a task whose first execution attempt fails is relaunched, so `launch_task`
runs twice over its lifetime. -/
theorem claim_C2_counterexample :
    ¬ (countLaunches 0 Examples.retryRun.2 ≤ 1) := by decide

/-- Witness for C10 on a concrete eager-mode failure. -/
theorem claim_C10_witness :
    ∃ tr', (handle_exec_update Examples.cfgEager 3 Examples.launchedState 0
        (FuVal.exn 9)).1.tasks 0 = some tr' ∧
      tr'.status = .failed ∧
      tr'.time_returned = ({ Examples.hangTask with status := .launched } :
        TaskRecord).time_returned ∧
      (handle_exec_update Examples.cfgEager 3 Examples.launchedState 0
          (FuVal.exn 9)).1.tasks_failed_count
        = Examples.launchedState.tasks_failed_count :=
  (claim_C10 Examples.cfgEager 2 Examples.launchedState 0
      { Examples.hangTask with status := .launched } (FuVal.exn 9)
      rfl rfl).1 rfl

theorem foldl_waitStep_none (g : Nat → Option Unit) :
    ∀ (l : List Nat),
      l.foldl (fun a t => a.bind fun _ => g t) none = none := by
  intro l
  induction l with
  | nil => rfl
  | cons x xs ih => simpa using ih

theorem foldl_waitStep_all (g : Nat → Option Unit) :
    ∀ (l : List Nat) (acc : Option Unit),
      l.foldl (fun a t => a.bind fun _ => g t) acc = some () →
      ∀ t ∈ l, g t = some () := by
  intro l
  induction l with
  | nil => simp
  | cons x xs ih =>
    intro acc h t ht
    simp only [List.foldl_cons] at h
    rcases List.mem_cons.mp ht with rfl | hxs
    · cases hacc : acc.bind fun _ => g t with
      | none => rw [hacc, foldl_waitStep_none] at h; exact absurd h (by simp)
      | some u =>
        cases acc with
        | none => simp at hacc
        | some a => simpa using hacc
    · exact ih _ h t hxs

/-- Counterexample to claim C3 as stated: `cleanup` returns successfully on a
kernel whose only task's AppFuture is not done, and leaves that future
untouched — it never waits on AppFutures (no step of it consults them). -/
theorem claim_C3_counterexample :
    (cleanup Examples.cfgRetry Examples.hangState).isOk = true ∧
    (match cleanup Examples.cfgRetry Examples.hangState with
      | Except.ok p => (p.1.tasks 0).map (fun tr => tr.app_fu.isSome)
      | Except.error _ => none) = some false := by decide

/-- Claim C3 (amended): the member that returns only after every task's
AppFuture is done is `wait_for_current_tasks`, not `cleanup`; `cleanup`
performs its shutdown steps without consulting AppFutures. -/
theorem claim_C3 (st : DFKState) (tid : Nat)
    (hw : wait_for_current_tasks st = some ())
    (hmem : tid ∈ st.task_ids) :
    ((st.tasks tid).map (fun tr => tr.app_fu.isSome)).getD true = true := by
  unfold wait_for_current_tasks at hw
  have hg := foldl_waitStep_all
    (fun tid =>
      match st.tasks tid with
      | none => some ()
      | some tr =>
        if tr.app_fu.isSome then some ()
        else (await_exception tr.app_fu).map fun _ => ())
    st.task_ids (some ()) hw tid hmem
  cases htr : st.tasks tid with
  | none => simp
  | some tr =>
    simp only [htr] at hg ⊢
    by_cases ha : tr.app_fu.isSome
    · simp [ha]
    · rw [Option.not_isSome_iff_eq_none] at ha
      rw [ha] at hg
      simp [await_exception] at hg

/-- Witness for C3's amended statement on a state whose only AppFuture is
done. -/
theorem claim_C3_witness :
    ((Examples.doneState.tasks 0).map (fun tr => tr.app_fu.isSome)).getD true
      = true :=
  claim_C3 Examples.doneState 0 rfl (by decide)

end Dflow

namespace Checkpoint

theorem except_bind_ok {α β : Type} (a : α) (f : α → Except String β) :
    (Except.ok a >>= f) = f a := rfl

theorem except_bind_error {α β : Type} (e : String) (f : α → Except String β) :
    ((Except.error e : Except String α) >>= f) = Except.error e := rfl

theorem foldlM_load_isOk :
    ∀ (dirs : List CkptDir) (tbl : Nat → Option (Except Nat (Option Nat))),
      (List.foldlM load_step tbl dirs).isOk = true ↔
        ∀ d ∈ dirs, (d.log).isSome = true := by
  intro dirs
  induction dirs with
  | nil => intro tbl; simp [List.foldlM, Except.isOk, Except.toBool, pure, Except.pure]
  | cons d ds ih =>
    intro tbl
    rw [List.foldlM_cons]
    cases hd : d.log with
    | none =>
      simp [load_step, hd, except_bind_error, Except.isOk, Except.toBool]
    | some p =>
      simp [load_step, hd, except_bind_ok, ih, List.forall_mem_cons]

theorem foldlM_load_error :
    ∀ (dirs : List CkptDir) (tbl : Nat → Option (Except Nat (Option Nat))),
      (List.foldlM load_step tbl dirs).isOk = false →
      List.foldlM load_step tbl dirs
        = Except.error "BadCheckpoint: Checkpoint file was not found" := by
  intro dirs
  induction dirs with
  | nil =>
    intro tbl h
    simp [List.foldlM, pure, Except.pure, Except.isOk, Except.toBool] at h
  | cons d ds ih =>
    intro tbl h
    rw [List.foldlM_cons] at h ⊢
    cases hd : d.log with
    | none => simp [load_step, hd, except_bind_error]
    | some p =>
      simp only [load_step, hd, except_bind_ok] at h ⊢
      exact ih _ h

theorem foldlM_load_clearTail :
    ∀ (dirs : List CkptDir) (tbl : Nat → Option (Except Nat (Option Nat))),
      List.foldlM load_step tbl (dirs.map clearTail)
        = List.foldlM load_step tbl dirs := by
  intro dirs
  induction dirs with
  | nil => intro tbl; rfl
  | cons d ds ih =>
    intro tbl
    rw [List.map_cons, List.foldlM_cons, List.foldlM_cons]
    cases hd : d.log with
    | none => simp [load_step, clearTail, hd, except_bind_error]
    | some p => simp [load_step, clearTail, hd, except_bind_ok, ih]

theorem load_dir_isSome_mono :
    ∀ (recs : List CkptRecord) (tbl : Nat → Option (Except Nat (Option Nat)))
      (h : Nat), (tbl h).isSome = true → (load_dir tbl recs h).isSome = true := by
  intro recs
  induction recs with
  | nil => intro tbl h hh; simpa [load_dir] using hh
  | cons r rs ih =>
    intro tbl h hh
    simp only [load_dir, List.foldl_cons]
    refine ih _ h ?_
    by_cases he : h = r.hash <;> simp [he, hh]

theorem load_dir_mem :
    ∀ (recs : List CkptRecord) (tbl : Nat → Option (Except Nat (Option Nat)))
      (r : CkptRecord), r ∈ recs → (load_dir tbl recs r.hash).isSome = true := by
  intro recs
  induction recs with
  | nil => simp
  | cons r' rs ih =>
    intro tbl r hr
    rcases List.mem_cons.mp hr with rfl | hrs
    · simp only [load_dir, List.foldl_cons]
      exact load_dir_isSome_mono rs _ r.hash (by simp)
    · simp only [load_dir, List.foldl_cons]
      exact ih _ r hrs

theorem foldlM_load_keys :
    ∀ (dirs : List CkptDir) (tbl tblF : Nat → Option (Except Nat (Option Nat))),
      List.foldlM load_step tbl dirs = Except.ok tblF →
      (∀ h, (tbl h).isSome = true → (tblF h).isSome = true) ∧
      (∀ d ∈ dirs, ∀ recs flag, d.log = some (recs, flag) →
        ∀ r ∈ recs, (tblF r.hash).isSome = true) := by
  intro dirs
  induction dirs with
  | nil =>
    intro tbl tblF h
    have : tbl = tblF := by
      simpa [List.foldlM, pure, Except.pure] using h
    subst this
    exact ⟨fun h hh => hh, by simp⟩
  | cons d ds ih =>
    intro tbl tblF h
    rw [List.foldlM_cons] at h
    cases hd : d.log with
    | none => simp [load_step, hd, except_bind_error] at h
    | some p =>
      simp only [load_step, hd, except_bind_ok] at h
      obtain ⟨hmono, hkeys⟩ := ih (load_dir tbl p.1) tblF h
      refine ⟨fun hh hhh => hmono hh (load_dir_isSome_mono p.1 tbl hh hhh), ?_⟩
      intro d' hd' recs flag hlog r hr
      rcases List.mem_cons.mp hd' with rfl | hds
      · rw [hd] at hlog
        have hrecs : p.1 = recs := by
          cases p
          simpa using congrArg Prod.fst (Option.some.inj hlog)
        subst hrecs
        exact hmono _ (load_dir_mem p.1 tbl r hr)
      · exact hkeys d' hds recs flag hlog r hr

/-- Claim C5: checkpoint loading (a) succeeds exactly when every directory's
tasks log is present, and a missing log raises the distinguishable
`BadCheckpoint` error; (b) treats a truncated final record as end-of-log (the
result is unchanged when the truncated tails are erased); and (c) on success
reconstitutes every complete record into the memo table (each record's hash is
a key of the resulting table). -/
theorem claim_C5 (dirs : List CkptDir) :
    ((load_checkpoints dirs).isOk = true ↔ ∀ d ∈ dirs, (d.log).isSome = true) ∧
    ((load_checkpoints dirs).isOk = false →
      load_checkpoints dirs
        = Except.error "BadCheckpoint: Checkpoint file was not found") ∧
    load_checkpoints (dirs.map clearTail) = load_checkpoints dirs ∧
    (∀ tblF, load_checkpoints dirs = Except.ok tblF →
      ∀ d ∈ dirs, ∀ recs flag, d.log = some (recs, flag) →
        ∀ r ∈ recs, (tblF r.hash).isSome = true) :=
  ⟨foldlM_load_isOk dirs _, foldlM_load_error dirs _, foldlM_load_clearTail dirs _,
    fun tblF h => (foldlM_load_keys dirs _ tblF h).2⟩

/-- Witness for C5 on a one-directory list whose log has one complete record
and a truncated tail: loading succeeds and record hash 5 is a key. -/
theorem claim_C5_witness :
    (load_checkpoints [Examples.ckptDir1]).isOk = true ∧
    load_checkpoints ([Examples.ckptDir1].map clearTail)
      = load_checkpoints [Examples.ckptDir1] :=
  ⟨(claim_C5 [Examples.ckptDir1]).1.mpr (by decide),
    (claim_C5 [Examples.ckptDir1]).2.2.1⟩

end Checkpoint

namespace Strategy

theorem strategy_simple_tick_busy (now : ℚ) (st : StState) (o : Obs)
    (h0 : ¬ o.outstanding = 0) :
    (strategy_simple_tick now st o).1 = st := by
  unfold strategy_simple_tick
  rw [if_neg h0]
  dsimp only []
  repeat' split
  all_goals rfl

theorem strategy_simple_tick_idle_min (now : ℚ) (st : StState) (o : Obs)
    (h0 : o.outstanding = 0) (hab : active_blocks o ≤ o.min_blocks) :
    (strategy_simple_tick now st o).1 = st := by
  unfold strategy_simple_tick
  rw [if_pos h0, if_pos hab]

theorem htex_strategy_tick_busy (now : ℚ) (st : StState) (o : Obs)
    (h0 : ¬ o.outstanding = 0) :
    (htex_strategy_tick now st o).1 = st := by
  unfold htex_strategy_tick
  rw [if_neg h0]
  dsimp only []
  repeat' split
  all_goals rfl

theorem htex_strategy_tick_idle_min (now : ℚ) (st : StState) (o : Obs)
    (h0 : o.outstanding = 0) (hab : active_blocks o ≤ o.min_blocks) :
    (htex_strategy_tick now st o).1 = st := by
  unfold htex_strategy_tick
  rw [if_pos h0, if_pos hab]

/-- Counterexample to claim C6 as stated: a non-idle observation (three
outstanding tasks) does not clear a running kill timer — `idle_since` keeps
its old value instead of returning to `None`. -/
theorem claim_C6_counterexample :
    (0 < Examples.busyObs.outstanding ∨
      active_blocks Examples.busyObs ≤ Examples.busyObs.min_blocks) ∧
    (strategy_simple_tick 100 { idle_since := some 5 }
        Examples.busyObs).1.idle_since ≠ none := by
  constructor
  · left; decide
  · rw [strategy_simple_tick_busy 100 { idle_since := some 5 }
      Examples.busyObs (by decide)]
    decide

/-- Claim C6 (amended): a non-idle observation (outstanding tasks exist, or
the executor is at or below `min_blocks`) leaves `idle_since` *unchanged* in
both `_strategy_simple` and `_htex_strategy`; the timer is never cleared, so a
later idle period reuses the stale timestamp rather than starting afresh. -/
theorem claim_C6 (now : ℚ) (st : StState) (o : Obs)
    (h : 0 < o.outstanding ∨ active_blocks o ≤ o.min_blocks) :
    (strategy_simple_tick now st o).1.idle_since = st.idle_since ∧
    (htex_strategy_tick now st o).1.idle_since = st.idle_since := by
  by_cases h0 : o.outstanding = 0
  · have hab : active_blocks o ≤ o.min_blocks := by omega
    rw [strategy_simple_tick_idle_min now st o h0 hab,
        htex_strategy_tick_idle_min now st o h0 hab]
    exact ⟨rfl, rfl⟩
  · rw [strategy_simple_tick_busy now st o h0, htex_strategy_tick_busy now st o h0]
    exact ⟨rfl, rfl⟩

/-- Witness for C6's amended statement at the concrete busy observation. -/
theorem claim_C6_witness :
    (strategy_simple_tick 100 { idle_since := some 5 }
        Examples.busyObs).1.idle_since
      = ({ idle_since := some 5 } : StState).idle_since ∧
    (htex_strategy_tick 100 { idle_since := some 5 }
        Examples.busyObs).1.idle_since
      = ({ idle_since := some 5 } : StState).idle_since :=
  claim_C6 100 { idle_since := some 5 } Examples.busyObs (Or.inl (by decide))

theorem countScaleIns_map_blocks (l : List Nat) :
    countScaleIns (l.map (fun b => SEvent.scaleInBlocks 1 [b])) = l.length := by
  induction l with
  | nil => rfl
  | cons b bs ih => simpa [countScaleIns, List.filter_cons] using ih

/-- The over-provisioned branch of `_htex_strategy`: when the executor is
htex, tasks are outstanding, the ratio test does not fire and there are more
slots than tasks, the tick drains every empty active block, one `scale_in`
call each. -/
theorem htex_tick_case4 (now : ℚ) (st : StState) (o : Obs)
    (hk : o.kind = .htex) (h0 : ¬ o.outstanding = 0)
    (hr : ¬ ((active_slots_htex o : ℚ) / (o.outstanding : ℚ) < o.parallelism))
    (ho : o.outstanding < active_slots_htex o) :
    htex_strategy_tick now st o
      = (st, (drainable_blocks o.connected_workers).map
          (fun b => SEvent.scaleInBlocks 1 [b])) := by
  have hs0 : 0 < active_slots_htex o := by omega
  simp only [active_slots_htex] at hr hs0 ho
  unfold htex_strategy_tick
  rw [if_neg h0, if_neg hr, if_neg (by omega), if_pos ⟨hs0, ho⟩, if_pos hk]

/-- Counterexample to claim C7 as stated: with two empty active blocks in the
over-provisioned case, one `_htex_strategy` tick invokes `scale_in` twice for
the same executor (once per drainable block). -/
theorem claim_C7_counterexample :
    ¬ (countScaleIns (htex_strategy_tick 0 { idle_since := none }
        Examples.overObs).2 ≤ 1) := by
  rw [htex_tick_case4 0 { idle_since := none } Examples.overObs rfl (by decide)
    (by
      have e1 : active_slots_htex Examples.overObs = 4 := by decide
      have e2 : Examples.overObs.outstanding = 1 := rfl
      have e3 : Examples.overObs.parallelism = 0 := rfl
      rw [e1, e2, e3]
      norm_num)
    (by decide)]
  decide

/-- Claim C7 (amended): in the over-provisioned case each `scale_in`
invocation drains exactly one block, but one tick issues such an invocation
for *every* block whose managers are all active with zero in-flight tasks, so
several blocks can be drained per executor per tick. -/
theorem claim_C7 (now : ℚ) (st : StState) (o : Obs)
    (hk : o.kind = .htex)
    (h0 : 0 < o.outstanding)
    (hr : ¬ ((active_slots_htex o : ℚ) / (o.outstanding : ℚ) < o.parallelism))
    (ho : o.outstanding < active_slots_htex o) :
    (htex_strategy_tick now st o).2
      = (drainable_blocks o.connected_workers).map
          (fun b => SEvent.scaleInBlocks 1 [b]) ∧
    countScaleIns (htex_strategy_tick now st o).2
      = (drainable_blocks o.connected_workers).length := by
  rw [htex_tick_case4 now st o hk (by omega) hr ho]
  exact ⟨rfl, countScaleIns_map_blocks _⟩

/-- Witness for C7's amended statement at the concrete over-provisioned
observation with two drainable blocks. -/
theorem claim_C7_witness :
    (htex_strategy_tick 0 { idle_since := none } Examples.overObs).2
      = (drainable_blocks Examples.overObs.connected_workers).map
          (fun b => SEvent.scaleInBlocks 1 [b]) ∧
    countScaleIns (htex_strategy_tick 0 { idle_since := none }
        Examples.overObs).2
      = (drainable_blocks Examples.overObs.connected_workers).length :=
  claim_C7 0 { idle_since := none } Examples.overObs rfl (by decide)
    (by
      have e1 : active_slots_htex Examples.overObs = 4 := by decide
      have e2 : Examples.overObs.outstanding = 1 := rfl
      have e3 : Examples.overObs.parallelism = 0 := rfl
      rw [e1, e2, e3]
      norm_num)
    (by decide)

/-- Claim C8: on an under-provisioned tick (`active_slots / active_tasks <
parallelism` and `active_blocks < max_blocks`, with outstanding work),
`_strategy_simple` requests exactly
`min(max_blocks - active_blocks, ceil(ceil(active_tasks * parallelism -
active_slots) / (tasks_per_node * nodes_per_block)))` blocks via `scale_out`. -/
theorem claim_C8 (now : ℚ) (st : StState) (o : Obs)
    (h0 : 0 < o.outstanding)
    (hr : (active_slots_simple o : ℚ) / (o.outstanding : ℚ) < o.parallelism)
    (hb : active_blocks o < o.max_blocks) :
    (strategy_simple_tick now st o).2
      = [SEvent.scaleOut (min ((o.max_blocks : ℤ) - (active_blocks o : ℤ))
          ⌈((⌈(o.outstanding : ℚ) * o.parallelism
                - (active_slots_simple o : ℚ)⌉ : ℚ))
              / ((tpn_simple o : ℚ) * (o.nodes_per_block : ℚ))⌉)] := by
  have h0' : ¬ (o.outstanding = 0) := by omega
  have hb' : ¬ (o.max_blocks ≤ active_blocks o) := by omega
  simp only [active_slots_simple] at hr ⊢
  unfold strategy_simple_tick
  rw [if_neg h0', if_pos hr, if_neg hb']

/-- Witness for C8: five outstanding tasks, no active blocks, parallelism 1,
`max_blocks = 4` — the tick requests `min(4, ceil(5)) = 4` blocks. -/
theorem claim_C8_witness :
    (strategy_simple_tick 0 { idle_since := none } Examples.underObs).2
      = [SEvent.scaleOut (min ((Examples.underObs.max_blocks : ℤ)
            - (active_blocks Examples.underObs : ℤ))
          ⌈((⌈(Examples.underObs.outstanding : ℚ) * Examples.underObs.parallelism
                - (active_slots_simple Examples.underObs : ℚ)⌉ : ℚ))
              / ((tpn_simple Examples.underObs : ℚ)
                  * (Examples.underObs.nodes_per_block : ℚ))⌉)] :=
  claim_C8 0 { idle_since := none } Examples.underObs (by decide)
    (by
      have e1 : active_slots_simple Examples.underObs = 0 := by decide
      have e2 : Examples.underObs.outstanding = 5 := rfl
      have e3 : Examples.underObs.parallelism = 1 := rfl
      rw [e1, e2, e3]
      norm_num)
    (by decide)

end Strategy

end Parsl
